import Mathlib

/-!
Verification of the task-management and session subsystem of the
`browser-use` fork (task orchestrator, step planner, task merger,
scratchpad store, socket session coordinator).

The Python sources are shallowly embedded: Python `str` operations are
rendered as structural recursions over `String.data` (`List Char`) so that
every definition is executable by the kernel; fallible code returns
`Except`; external effects (the LLM replies, `uuid` draws, the clock) are
parameters gathered in an `Env` record; the orchestrator's mutable fields
and the scratchpad directory are an explicit `TMState` threaded through
the operations.
-/

namespace BrowserUse

/-! ## Python string primitives (char-level, kernel-computable) -/

/-- Drop a concrete expected run of characters from the front of a list;
`some rest` on success, `none` when the run is not a prefix of the input. -/
def dropPre : List Char → List Char → Option (List Char)
  | [], cs => some cs
  | _ :: _, [] => none
  | p :: ps, c :: cs => if p = c then dropPre ps cs else none

/-- Split a character list at newline characters, the semantics of
Python `str.split('\n')` (always at least one piece; empty pieces kept). -/
def splitLines : List Char → List (List Char)
  | [] => [[]]
  | c :: cs =>
    let r := splitLines cs
    if c = '\n' then [] :: r
    else (c :: r.headD []) :: r.tail

/-- Python `s.split('\n')`. -/
def pySplitNl (s : String) : List String :=
  (splitLines s.data).map (fun l => ⟨l⟩)

/-- The whitespace class of Python `str.strip()`. -/
def pySpace (c : Char) : Bool :=
  c = ' ' || c = '\t' || c = '\n' || c = '\r' || c = '\x0b' || c = '\x0c'

/-- Python `s.strip()`. -/
def pyStrip (s : String) : String :=
  ⟨(((s.data.dropWhile pySpace).reverse.dropWhile pySpace).reverse)⟩

/-- Python `s.startswith(pre)`. -/
def pyStarts (s pre : String) : Bool :=
  (dropPre pre.data s.data).isSome

/-- Python slicing `s[n:]` (by code points, as in Python). -/
def pyDrop (s : String) (n : Nat) : String :=
  ⟨s.data.drop n⟩

/-- Python slicing `s[:n]`. -/
def pyTake (s : String) (n : Nat) : String :=
  ⟨s.data.take n⟩

/-- Python `c in s` for a single character. -/
def pyHasChar (s : String) (c : Char) : Bool :=
  s.data.contains c

/-- Python `s.split(sep, 1)[1]` for a one-character separator, defined when
the separator occurs: everything after its first occurrence. -/
def afterFirstColon (s : String) : String :=
  ⟨(s.data.dropWhile (fun c => c ≠ ':')).drop 1⟩

/-- Python `s.lower()` (ASCII case mapping). -/
def pyLower (s : String) : String :=
  ⟨s.data.map Char.toLower⟩

/-- Python `s.replace(" ", "_")` (single-character pattern, hence a map). -/
def pyUnderscore (s : String) : String :=
  ⟨s.data.map (fun c => if c = ' ' then '_' else c)⟩

/-- Python `"\n".join(lines)`. -/
def pyJoinNl (lines : List String) : String :=
  ⟨List.intercalate ['\n'] (lines.map String.data)⟩

/-- Python truthiness of an optional string (`None` and `""` are falsy). -/
def pyTruthy : Option String → Bool
  | none => false
  | some s => !s.data.isEmpty

/-! ## Data model (`browser_use/agent/task_manager/views.py`) -/

/-- The `StepStatus` enum of `views.py`; `statusValue` gives each member's
string value. -/
inductive StepStatus where
  | OPEN
  | IN_PROGRESS
  | COMPLETED
  | FAILED
  | HUMAN
deriving DecidableEq, Repr, Inhabited

/-- The `.value` string of each `StepStatus` member. -/
def statusValue : StepStatus → String
  | .OPEN => "open"
  | .IN_PROGRESS => "in-progress"
  | .COMPLETED => "completed"
  | .FAILED => "failed"
  | .HUMAN => "human"

/-- The `Step` model of `views.py` (defaults: status OPEN, no failure details,
retry count 0). -/
structure Step where
  description : String
  reasoning : String
  status : StepStatus := .OPEN
  failure_details : Option String := none
  retry_count : Nat := 0
deriving DecidableEq, Repr, Inhabited

/-- The `Task` model of `views.py`. -/
structure Task where
  task_id : String
  description : String
  current_goal : String
  details : List String
  notes : List String
  steps : List Step
  scratchpad_path : String
  max_retries : Nat := 3
deriving DecidableEq, Repr

/-- The Python exceptions raised by the subsystem:
`ValueError("Invalid step index")`, `IndexError` from list indexing or
`split(...)[1]`, and `NotImplementedError`. -/
inductive TMErr where
  | invalidStepIndex
  | indexError
  | notImplemented
deriving DecidableEq, Repr

/-! ## Python list indexing (negative indices, `IndexError` as `none`) -/

/-- Normalize a Python sequence index against a length: nonnegative
indices must be below the length, negative indices count from the end. -/
def pyIdx (n : Nat) (i : Int) : Option Nat :=
  if 0 ≤ i then (if i < (n : Int) then some i.toNat else none)
  else (if 0 ≤ i + (n : Int) then some (i + (n : Int)).toNat else none)

/-- Python `l[i]`; `none` is an `IndexError`. -/
def pyGetL (l : List α) (i : Int) : Option α :=
  (pyIdx l.length i).bind fun j => l.get? j

/-- Python `l[i] = a`; `none` is an `IndexError`. -/
def pySetL (l : List α) (i : Int) (a : α) : Option (List α) :=
  (pyIdx l.length i).map fun j => l.set j a

/-! ## Step planner (`step.py`) -/

/-- Source `StepManager.update_step_status`: set the status; on FAILED also
record the failure details and bump the retry count. -/
def StepManager.update_step_status (step : Step) (new_status : StepStatus)
    (failure_details : Option String := none) : Step :=
  let step := { step with status := new_status }
  if new_status = StepStatus.FAILED then
    { step with failure_details := failure_details,
                retry_count := step.retry_count + 1 }
  else step

/-- A step as freshly constructed by the parser (`Step(description=...,
reasoning=...)` with model defaults). -/
def freshStep (d r : String) : Step :=
  { description := d, reasoning := r }

/-- The `steps.append` guard and construction shared by the loop body and
its final flush in `_parse_steps_from_llm_response`: emit only when both
the pending description and the pending reasoning are truthy. -/
def flushStep (d r : Option String) : List Step :=
  if pyTruthy d && pyTruthy r then [freshStep (d.getD "") (r.getD "")] else []

/-- The line loop of `StepManager._parse_steps_from_llm_response`:
accumulated steps, pending description, pending reasoning. -/
def parseLoop : List String → List Step → Option String → Option String → List Step
  | [], acc, d, r => acc ++ flushStep d r
  | line :: rest, acc, d, r =>
    let l := pyStrip line
    if l.data.isEmpty then parseLoop rest acc d r
    else if pyStarts l "STEP:" then
      parseLoop rest (acc ++ flushStep d r) (some (pyStrip (pyDrop l 5))) none
    else if pyStarts l "REASONING:" then
      parseLoop rest acc d (some (pyStrip (pyDrop l 10)))
    else parseLoop rest acc d r

/-- Source `StepManager._parse_steps_from_llm_response`. -/
def StepManager.parse_steps_from_llm_response (response : String) : List Step :=
  parseLoop (pySplitNl response) [] none none

/-- Source `StepManager.generate_steps`: one planning request; the free-text
reply of the external LLM is the `reply` parameter, and its parse is the
result (a non-string reply would give `[]`, not modelled since the oracle
supplies a string). -/
def StepManager.generate_steps (task_description goal reply : String) : List Step :=
  let _ := task_description
  let _ := goal
  StepManager.parse_steps_from_llm_response reply

/-! ## Task merger (`merger.py`) -/

/-- Source `TaskMerger.can_merge_tasks` on a string LLM reply: strip it, read the
merge flag from a `MERGE:` head, and take the text after the first colon
as reasoning; a reply with no colon makes `result.split(":", 1)[1]` raise
`IndexError`. -/
def TaskMerger.can_merge_tasks (current_task : Task) (new_task_description reply : String) :
    Except TMErr (Bool × String) :=
  let _ := current_task
  let _ := new_task_description
  let result := pyStrip reply
  if pyHasChar result ':' then
    .ok (pyStarts result "MERGE:", pyStrip (afterFirstColon result))
  else
    .error .indexError

/-- Source `TaskMerger.merge_tasks`: after the merge prompt round trip the body
is `raise NotImplementedError` for every input. -/
def TaskMerger.merge_tasks (current_task : Task) (new_task_description merge_reasoning reply : String) :
    Except TMErr Task :=
  let _ := current_task
  let _ := new_task_description
  let _ := merge_reasoning
  let _ := reply
  .error .notImplemented

/-! ## Scratchpad store (`scratchpad.py`) -/

/-- Source `ScratchpadManager.generate_scratchpad_path`: `base_dir` joined with
`sess_<4 hex>_task_<task_name>_<6 hex>.md`; the hex fragments are
`uuid4` draws supplied by the environment. -/
def generate_scratchpad_path (base_dir task_name session_hex task_hex : String) : String :=
  base_dir ++ "/" ++ "sess_" ++ session_hex ++ "_task_" ++ task_name ++ "_" ++ task_hex ++ ".md"

/-- The per-step blocks of `ScratchpadManager._generate_markdown`
(`enumerate(task.steps, 1)`). -/
def stepLines : Nat → List Step → List String
  | _, [] => []
  | i, s :: rest =>
    ["### Step " ++ Nat.repr i ++ ": " ++ s.description,
     "Reasoning: " ++ s.reasoning,
     "Status: " ++ statusValue s.status]
    ++ (if pyTruthy s.failure_details then
          ["Failure Details: " ++ s.failure_details.getD ""] else [])
    ++ [""]
    ++ stepLines (i + 1) rest

/-- Source `ScratchpadManager._generate_markdown`; the `datetime.now()` timestamp
is the `ts` parameter. -/
def generate_markdown (ts : String) (task : Task) : String :=
  pyJoinNl (
    ["# Task: " ++ task.description,
     "Current Goal: " ++ task.current_goal ++ "\n",
     "## Details"]
    ++ task.details.map (fun d => "- " ++ d)
    ++ [""]
    ++ ["## Notes"]
    ++ task.notes.map (fun n => "- " ++ n)
    ++ [""]
    ++ ["## Task History",
        "- [" ++ ts ++ "] Task initiated: " ++ task.description,
        ""]
    ++ ["## Steps"]
    ++ stepLines 1 task.steps)

/-- Source `ScratchpadManager.read_task`: `raise NotImplementedError` for every
path. -/
def ScratchpadManager.read_task (scratchpad_path : String) : Except TMErr Task :=
  let _ := scratchpad_path
  .error .notImplemented

/-! ## Orchestrator state (`service.py`) -/

/-- External nondeterminism consumed by one orchestrator call: the
`uuid4` task id, the two `uuid4` hex fragments of the scratchpad path,
the planner's and merge evaluator's LLM replies, and the clock reading. -/
structure Env where
  taskId : String
  sessionHex : String
  taskHex : String
  plannerReply : String
  mergeReply : String
  ts : String

/-- Observable orchestrator state: the current task, the scratchpad file
store (path to full contents), the scratchpad directory, and the
configured retry budget. -/
structure TMState where
  current_task : Option Task
  files : List (String × String)
  base_dir : String
  max_retries : Nat
deriving DecidableEq, Repr

/-- Overwrite-the-whole-file write of the scratchpad store
(`create_scratchpad` / `update_scratchpad` both do exactly this). -/
def setFile (files : List (String × String)) (p c : String) : List (String × String) :=
  (p, c) :: files.filter (fun e => !(e.1 == p))

/-- Current contents of a file in the store. -/
def lookupFile (files : List (String × String)) (p : String) : Option String :=
  (files.find? (fun e => e.1 == p)).map (fun e => e.2)

/-- Source `TaskManager.create_task`: allocate the id and path, parse the
planner reply into steps, build the task, write the first snapshot,
install the task as current. -/
def TaskManager.create_task (env : Env) (description goal : String)
    (details : Option (List String)) (st : TMState) : Except TMErr Task × TMState :=
  let task_id := env.taskId
  let scratchpad_path := generate_scratchpad_path st.base_dir
    (pyTake (pyUnderscore (pyLower description)) 30) env.sessionHex env.taskHex
  let steps := StepManager.generate_steps description goal env.plannerReply
  let task : Task :=
    { task_id := task_id, description := description, current_goal := goal,
      details := details.getD [], notes := [], steps := steps,
      scratchpad_path := scratchpad_path, max_retries := st.max_retries }
  let st' := { st with
    files := setFile st.files task.scratchpad_path (generate_markdown env.ts task),
    current_task := some task }
  (.ok task, st')

/-- Source `TaskManager.add_task`: create when no current task; otherwise ask the
merge evaluator, merge on a yes (which raises `NotImplementedError`), and
fall through to `create_task` on a no. A raise propagates with the state
exactly as it was (no mutation precedes any raising point in the source). -/
def TaskManager.add_task (env : Env) (description goal : String)
    (details : Option (List String)) (st : TMState) : Except TMErr Task × TMState :=
  match st.current_task with
  | none => TaskManager.create_task env description goal details st
  | some t =>
    match TaskMerger.can_merge_tasks t description env.mergeReply with
    | .error e => (.error e, st)
    | .ok (can_merge, reasoning) =>
      if can_merge then
        match TaskMerger.merge_tasks t description reasoning env.mergeReply with
        | .error e => (.error e, st)
        | .ok merged =>
          ( .ok merged,
            { st with
              current_task := some merged,
              files := setFile st.files merged.scratchpad_path (generate_markdown env.ts merged) })
      else TaskManager.create_task env description goal details st

/-- Source `TaskManager.update_step_status`: guard (`ValueError("Invalid step
index")` when no current task or `step_index >= len(steps)`), Python
indexing (`IndexError` when the negative index is below `-len(steps)`),
the per-step transition, replacement at the index, and the synchronous
snapshot write. -/
def TaskManager.update_step_status (env : Env) (st : TMState) (step_index : Int)
    (new_status : StepStatus) (failure_details : Option String) :
    Except TMErr Task × TMState :=
  match st.current_task with
  | none => (.error .invalidStepIndex, st)
  | some task =>
    if ((task.steps.length : Int)) ≤ step_index then (.error .invalidStepIndex, st)
    else
      match pyGetL task.steps step_index with
      | none => (.error .indexError, st)
      | some step =>
        let updated := StepManager.update_step_status step new_status failure_details
        match pySetL task.steps step_index updated with
        | none => (.error .indexError, st)
        | some steps' =>
          let task' := { task with steps := steps' }
          let st' := { st with
            current_task := some task',
            files := setFile st.files task.scratchpad_path (generate_markdown env.ts task') }
          (.ok task', st')

/-- Source `TaskManager.get_step`: `None` when no current task or
`step_index >= len(steps)`; otherwise Python indexing, whose negative
out-of-range case raises `IndexError`. -/
def TaskManager.get_step (st : TMState) (step_index : Int) : Except TMErr (Option Step) :=
  match st.current_task with
  | none => .ok none
  | some task =>
    if ((task.steps.length : Int)) ≤ step_index then .ok none
    else
      match pyGetL task.steps step_index with
      | none => .error .indexError
      | some step => .ok (some step)

/-! ## Session coordinator (`api/websocket/manager.py`) -/

/-- Observable actions of `SocketManager.set_agent_session`, in program
order: the best-effort `sio.disconnect` on the previous holder (with the
outcome of that attempt) and the installation of the new holder. -/
inductive SockEvent where
  | disconnectAttempt (sid : String) (ok : Bool)
  | install (sid : String)
deriving DecidableEq, Repr

/-- State of the `SocketManager`: the session map keys and the single agent
slot. -/
structure SockState where
  sessions : List String
  agent_sid : Option String
deriving DecidableEq, Repr

/-- Source `SocketManager.set_agent_session`: `if self.agent_sid and
self.agent_sid != sid:` try to disconnect the previous holder (a failure
is logged, never re-raised — `ok` records the attempt's outcome and does
not affect the result), then `self.agent_sid = sid`. Note the Python
truthiness guard: an empty-string holder skips the disconnect. -/
def SocketManager.set_agent_session (st : SockState) (sid : String) (ok : Bool) :
    SockState × List SockEvent :=
  let evs :=
    match st.agent_sid with
    | some a => if !a.data.isEmpty && a ≠ sid then [SockEvent.disconnectAttempt a ok] else []
    | none => []
  ({ st with agent_sid := some sid }, evs ++ [SockEvent.install sid])

/-! ## Spec-side description of the planner-reply grammar (§4.2)

The following definitions restate the spec's line-oriented grammar in its
own words — stripped nonblank lines, blocks opened by `STEP:` lines, the
block's reasoning supplied by its last `REASONING:` line — to be compared
with the source-translated parser above. -/

/-- The stripped, nonblank lines of a reply. -/
def cleanLines (response : String) : List String :=
  ((pySplitNl response).map pyStrip).filter (fun l => !l.data.isEmpty)

/-- A line that opens a new step block. -/
def isStepLine (l : String) : Bool := pyStarts l "STEP:"

/-- The reasoning a block ends up with: the payload of the last
`REASONING:` line among the block's lines. -/
def lastReasoningOf (ls : List String) : Option String :=
  ((ls.filter (fun l => pyStarts l "REASONING:")).getLast?).map
    (fun l => pyStrip (pyDrop l 10))

/-- A block emits one fresh step exactly when its description and its
final reasoning are both nonempty. -/
def emitBlock (d : String) (body : List String) : List Step :=
  match lastReasoningOf body with
  | some r => if !d.data.isEmpty && !r.data.isEmpty then [freshStep d r] else []
  | none => []

/-- Block decomposition of the cleaned lines: lines before the first
`STEP:` line belong to no block; each `STEP:` line opens a block running
to the next `STEP:` line. -/
def specBlocks : List String → List Step
  | [] => []
  | l :: ls =>
    if isStepLine l then
      emitBlock (pyStrip (pyDrop l 5)) (ls.takeWhile (fun x => !isStepLine x))
        ++ specBlocks (ls.dropWhile (fun x => !isStepLine x))
    else specBlocks ls
termination_by ls => ls.length
decreasing_by
  · exact Nat.lt_succ_of_le (List.dropWhile_sublist _).length_le
  · simp

/-- The spec's parse of a planner reply (§4.2 grammar, amended for the
source's nonemptiness requirement on descriptions and reasonings). -/
def parse_steps_spec (response : String) : List Step :=
  specBlocks (cleanLines response)

/-- Accumulator-free restatement of the source parser's loop over the
cleaned lines, the bridge between `parseLoop` and `specBlocks`. -/
def loopClean : List String → Option String → Option String → List Step
  | [], d, r => flushStep d r
  | l :: ls, d, r =>
    if isStepLine l then flushStep d r ++ loopClean ls (some (pyStrip (pyDrop l 5))) none
    else if pyStarts l "REASONING:" then loopClean ls d (some (pyStrip (pyDrop l 10)))
    else loopClean ls d r

/-! ## Snapshot read-back (modelled from the spec) -/

/-- Decode a `Status:` payload back to the enum. -/
def parseStatusChars (v : List Char) : Option StepStatus :=
  if v = "open".data then some .OPEN
  else if v = "in-progress".data then some .IN_PROGRESS
  else if v = "completed".data then some .COMPLETED
  else if v = "failed".data then some .FAILED
  else if v = "human".data then some .HUMAN
  else none

/-- Close the step block currently being read, if any. -/
def flushBlock : Option (List Char × Option StepStatus) → List (String × Option StepStatus)
  | none => []
  | some (d, st) => [(⟨d⟩, st)]

/-- Line loop of the snapshot reader: `k` is the step number the next
`### Step` heading is expected to carry (§6 numbers the blocks 1..n). -/
def readLoop (k : Nat) : List (List Char) → Option (List Char × Option StepStatus) →
    List (String × Option StepStatus)
  | [], cur => flushBlock cur
  | l :: ls, cur =>
    match dropPre "### Step ".data l with
    | some rest =>
      let d :=
        match dropPre (Nat.repr k).data rest with
        | some r2 =>
          match dropPre ": ".data r2 with
          | some d0 => d0
          | none => rest
        | none => rest
      flushBlock cur ++ readLoop (k + 1) ls (some (d, none))
    | none =>
      match dropPre "Status: ".data l with
      | some v =>
        match cur with
        | some (d, _) => readLoop k ls (some (d, parseStatusChars v))
        | none => readLoop k ls none
      | none => readLoop k ls cur

/-- Modelled from the spec: `ScratchpadManager.read_task` is declared but
not implemented in the source (it raises `NotImplementedError`), so the
§6 scratchpad file format defines the read-back here: the `### Step <n>:
<description>` headings and their `Status: <status>` lines, recovered in
document order as (description, status) pairs. -/
def read_step_section (content : String) : List (String × Option StepStatus) :=
  readLoop 1 (splitLines content.data) none

/-- Source `ScratchpadManager.update_scratchpad` (and `create_scratchpad`, whose
body is identical): regenerate the whole document and overwrite the
task's snapshot file. -/
def update_scratchpad (ts : String) (files : List (String × String)) (task : Task) :
    List (String × String) :=
  setFile files task.scratchpad_path (generate_markdown ts task)

/-! ## Heap-level view of the per-step update (`step.py` mutates in place)

Python's `StepManager.update_step_status` mutates the `Step` object it is
given and returns that same object.  The heap is a store of steps
addressed by position; the operation rewrites the store at the given
address and hands back the same address. -/

/-- Heap rendering of `StepManager.update_step_status`: update the store
at address `r`, return the same address. -/
def stepStoreUpdate (σ : List Step) (r : Nat) (ns : StepStatus) (fd : Option String) :
    List Step × Nat :=
  (σ.set r (StepManager.update_step_status (σ.getD r default) ns fd), r)

/-- Iterated per-step transitions, for the retry-accounting claim. -/
def applyTransitions (s : Step) (ts : List (StepStatus × Option String)) : Step :=
  ts.foldl (fun st p => StepManager.update_step_status st p.1 p.2) s

/-- A string free of newline characters; the scratchpad round trip can
only recover fields that do not fake line boundaries. -/
def noNl (s : String) : Prop := '\n' ∉ s.data

instance (s : String) : Decidable (noNl s) := by
  unfold noNl
  infer_instance

/-- All text fields of a task (and the timestamp) are newline-free. -/
def TaskLineSafe (ts : String) (task : Task) : Prop :=
  noNl ts ∧ noNl task.description ∧ noNl task.current_goal ∧
  (∀ d ∈ task.details, noNl d) ∧ (∀ n ∈ task.notes, noNl n) ∧
  (∀ s ∈ task.steps, noNl s.description ∧ noNl s.reasoning ∧ noNl (s.failure_details.getD ""))

instance (ts : String) (task : Task) : Decidable (TaskLineSafe ts task) := by
  unfold TaskLineSafe
  infer_instance

/-- The generated document's physical lines: the lines list of
`_generate_markdown` with the goal entry's embedded trailing newline
split out. -/
def docFlatLines (ts : String) (task : Task) : List String :=
  ["# Task: " ++ task.description,
   "Current Goal: " ++ task.current_goal,
   "",
   "## Details"]
  ++ task.details.map (fun d => "- " ++ d)
  ++ [""]
  ++ ["## Notes"]
  ++ task.notes.map (fun n => "- " ++ n)
  ++ [""]
  ++ ["## Task History",
      "- [" ++ ts ++ "] Task initiated: " ++ task.description,
      ""]
  ++ ["## Steps"]
  ++ stepLines 1 task.steps

/-! # Theorems -/

/-! ## Per-step transition basics -/

theorem uss_status (s : Step) (ns : StepStatus) (fd : Option String) :
    (StepManager.update_step_status s ns fd).status = ns := by
  simp only [StepManager.update_step_status]
  split <;> rfl

theorem uss_retry (s : Step) (ns : StepStatus) (fd : Option String) :
    (StepManager.update_step_status s ns fd).retry_count =
      if ns = StepStatus.FAILED then s.retry_count + 1 else s.retry_count := by
  simp only [StepManager.update_step_status]
  split <;> rfl

theorem uss_fd (s : Step) (ns : StepStatus) (fd : Option String) :
    (StepManager.update_step_status s ns fd).failure_details =
      if ns = StepStatus.FAILED then fd else s.failure_details := by
  simp only [StepManager.update_step_status]
  split <;> rfl

theorem applyTransitions_retry (ts : List (StepStatus × Option String)) :
    ∀ s : Step, (applyTransitions s ts).retry_count =
      s.retry_count + (ts.filter (fun p => p.1 == StepStatus.FAILED)).length := by
  induction ts with
  | nil => intro s; simp [applyTransitions]
  | cons p ts ih =>
    intro s
    have h1 : applyTransitions s (p :: ts) =
        applyTransitions (StepManager.update_step_status s p.1 p.2) ts := rfl
    rw [h1, ih, uss_retry]
    by_cases hp : p.1 = StepStatus.FAILED
    · simp [hp]
      omega
    · simp [hp]

/-- C3: the per-step update always installs the new status; a FAILED
transition records the failure details and bumps the retry count by
exactly one; every non-FAILED transition leaves both untouched; hence over
any transition sequence the retry count is monotone and equals its
initial value plus the number of FAILED transitions. -/
theorem step_update_spec (s : Step) (ns : StepStatus) (fd : Option String) :
    (StepManager.update_step_status s ns fd).status = ns ∧
    (ns = StepStatus.FAILED →
      (StepManager.update_step_status s ns fd).failure_details = fd ∧
      (StepManager.update_step_status s ns fd).retry_count = s.retry_count + 1) ∧
    (ns ≠ StepStatus.FAILED →
      (StepManager.update_step_status s ns fd).failure_details = s.failure_details ∧
      (StepManager.update_step_status s ns fd).retry_count = s.retry_count) ∧
    (∀ ts : List (StepStatus × Option String),
      (applyTransitions s ts).retry_count =
        s.retry_count + (ts.filter (fun p => p.1 == StepStatus.FAILED)).length ∧
      s.retry_count ≤ (applyTransitions s ts).retry_count) := by
  refine ⟨uss_status s ns fd, fun h => ⟨?_, ?_⟩, fun h => ⟨?_, ?_⟩, fun ts => ⟨?_, ?_⟩⟩
  · rw [uss_fd]; simp [h]
  · rw [uss_retry]; simp [h]
  · rw [uss_fd]; simp [h]
  · rw [uss_retry]; simp [h]
  · exact applyTransitions_retry ts s
  · rw [applyTransitions_retry ts s]; omega

/-- C3 witness: a FAILED transition on a concrete step, and retry
accounting over a concrete mixed transition sequence. -/
theorem step_update_spec_witness :
    ((StepManager.update_step_status (Step.mk "a" "b" .OPEN none 0) .FAILED (some "t")).failure_details = some "t" ∧
     (StepManager.update_step_status (Step.mk "a" "b" .OPEN none 0) .FAILED (some "t")).retry_count = 0 + 1) ∧
    ((applyTransitions (Step.mk "a" "b" .OPEN none 0)
        [(.FAILED, some "x"), (.COMPLETED, none), (.FAILED, some "y")]).retry_count =
      0 + ([((.FAILED : StepStatus), some "x"), (.COMPLETED, none), (.FAILED, some "y")].filter
            (fun p => p.1 == StepStatus.FAILED)).length) :=
  ⟨(step_update_spec (Step.mk "a" "b" .OPEN none 0) .FAILED (some "t")).2.1 rfl,
   ((step_update_spec (Step.mk "a" "b" .OPEN none 0) .FAILED (some "t")).2.2.2
      [(.FAILED, some "x"), (.COMPLETED, none), (.FAILED, some "y")]).1⟩

/-! ## Heap lemmas for the in-place claim -/

theorem set_of_get? : ∀ (l : List α) (j : Nat) (a : α), l.get? j = some a → l.set j a = l
  | [], _, _, h => by simp [List.get?] at h
  | x :: xs, 0, a, h => by
    simp [List.get?] at h
    simp [h]
  | x :: xs, j + 1, a, h => by
    simp only [List.get?] at h
    simp [List.set, set_of_get? xs j a h]

theorem get?_set_self : ∀ (l : List α) (j : Nat) (a : α), j < l.length →
    (l.set j a).get? j = some a
  | [], _, _, h => by simp at h
  | x :: xs, 0, a, _ => rfl
  | x :: xs, j + 1, a, h => by
    simp only [List.set, List.get?]
    exact get?_set_self xs j a (by simpa using h)

/-- C10: the per-step update rewrites the step's heap cell and returns the
very address it was given, so the service layer's write-back of the
returned step at the same list position is an identity assignment, and
the store already shows the new status at that address. -/
theorem step_update_in_place (σ : List Step) (r : Nat) (ns : StepStatus) (fd : Option String) :
    (stepStoreUpdate σ r ns fd).2 = r ∧
    (∀ (refs : List Nat) (i : Int), pyGetL refs i = some r →
      pySetL refs i (stepStoreUpdate σ r ns fd).2 = some refs) ∧
    (r < σ.length → ((stepStoreUpdate σ r ns fd).1.getD r default).status = ns) := by
  refine ⟨rfl, ?_, ?_⟩
  · intro refs i h
    simp only [pyGetL, Option.bind_eq_some] at h
    obtain ⟨j, hj, hget⟩ := h
    simp only [pySetL, stepStoreUpdate, hj, Option.map]
    rw [set_of_get? refs j r hget]
  · intro hr
    simp only [stepStoreUpdate, List.getD]
    rw [get?_set_self σ r _ hr]
    simp [uss_status]

/-- C10 witness: a concrete store and a concrete alias list. -/
theorem step_update_in_place_witness :
    pyGetL [0, 1] (1 : Int) = some 1 ∧
    pySetL [0, 1] (1 : Int) (stepStoreUpdate [Step.mk "a" "r" .OPEN none 0, Step.mk "b" "r" .OPEN none 0] 1 .FAILED (some "x")).2 = some [0, 1] ∧
    (((stepStoreUpdate [Step.mk "a" "r" .OPEN none 0, Step.mk "b" "r" .OPEN none 0] 1 .FAILED (some "x")).1.getD 1 default).status = .FAILED) :=
  ⟨by decide,
   (step_update_in_place [Step.mk "a" "r" .OPEN none 0, Step.mk "b" "r" .OPEN none 0] 1 .FAILED (some "x")).2.1 [0, 1] 1 (by decide),
   (step_update_in_place [Step.mk "a" "r" .OPEN none 0, Step.mk "b" "r" .OPEN none 0] 1 .FAILED (some "x")).2.2 (by decide)⟩

/-! ## Merge evaluation and merge construction -/

/-- C1: evaluating `can_merge_tasks` at a colon-free string reply. The
code reaches `result.split(":", 1)[1]` and raises `IndexError` instead of
returning the degrade-safe default `(False, "Failed to parse LLM
response")` that both the spec and the function's own fallback branch
intend. -/
theorem canMerge_no_colon_raises :
    TaskMerger.can_merge_tasks
      (Task.mk "t1" "current" "goal" [] [] [] "p.md" 3)
      "new task" "NO_MERGE the tasks are unrelated" = .error .indexError := rfl

/-- C5: the merge-construction operation and the snapshot read-back both
surface `NotImplementedError` on every input, and an `addTask` call whose
merge decision was yes propagates that error with the orchestrator state
(current task and files) exactly as before. -/
theorem merge_unsupported_spec :
    (∀ (t : Task) (d r reply : String),
      TaskMerger.merge_tasks t d r reply = .error .notImplemented) ∧
    (∀ p : String, ScratchpadManager.read_task p = .error .notImplemented) ∧
    (∀ (env : Env) (d g : String) (det : Option (List String)) (st : TMState)
       (t : Task) (r : String),
      st.current_task = some t →
      TaskMerger.can_merge_tasks t d env.mergeReply = .ok (true, r) →
      TaskManager.add_task env d g det st = (.error .notImplemented, st)) := by
  refine ⟨fun _ _ _ _ => rfl, fun _ => rfl, ?_⟩
  intro env d g det st t r ht hcm
  simp [TaskManager.add_task, ht, hcm, TaskMerger.merge_tasks]

/-- C5 witness: a concrete merge-approving reply leaves a concrete state
untouched and surfaces the unsupported outcome. -/
theorem merge_unsupported_spec_witness :
    TaskMerger.can_merge_tasks (Task.mk "t1" "cur" "g" [] [] [] "p.md" 3) "new"
      (Env.mk "id" "ab" "cdef" "" "MERGE: fits together" "T").mergeReply = .ok (true, "fits together") ∧
    TaskManager.add_task (Env.mk "id" "ab" "cdef" "" "MERGE: fits together" "T") "new" "g" none
      (TMState.mk (some (Task.mk "t1" "cur" "g" [] [] [] "p.md" 3)) [] "sp" 3) =
      (.error .notImplemented, TMState.mk (some (Task.mk "t1" "cur" "g" [] [] [] "p.md" 3)) [] "sp" 3) :=
  ⟨rfl,
   merge_unsupported_spec.2.2 (Env.mk "id" "ab" "cdef" "" "MERGE: fits together" "T") "new" "g" none
     (TMState.mk (some (Task.mk "t1" "cur" "g" [] [] [] "p.md" 3)) [] "sp" 3)
     (Task.mk "t1" "cur" "g" [] [] [] "p.md" 3) "fits together" rfl rfl⟩

/-! ## Session coordinator -/

theorem str_data_not_empty (A : String) (h : A ≠ "") : A.data.isEmpty = false := by
  cases A with
  | mk l =>
    cases l with
    | nil => exact absurd rfl h
    | cons c cs => rfl

/-- C6 counterexample: with the empty string holding the agent slot and a
different incoming id, the Python truthiness guard `if self.agent_sid and
...` skips the disconnect attempt entirely, so no disconnect attempt
against the holder is made even though holder and newcomer differ. -/
theorem set_agent_session_empty_sid_cex :
    (SocketManager.set_agent_session (SockState.mk [] (some "")) "b" true).2
      = [SockEvent.install "b"] ∧
    ("" : String) ≠ "b" := by
  exact ⟨rfl, by decide⟩

/-- C6 (amended: the evicted holder must be a nonempty id, as the source's
truthiness guard skips falsy holders): installing `B` over a distinct
nonempty holder `A` yields the slot holding only `B`, with a single
disconnect attempt against `A` emitted before the installation of `B`,
whatever the outcome of that attempt. -/
theorem set_agent_session_evicts (st : SockState) (A B : String) (ok : Bool)
    (hA : st.agent_sid = some A) (hne : A ≠ "") (hAB : A ≠ B) :
    SocketManager.set_agent_session st B ok =
      ({ st with agent_sid := some B },
       [SockEvent.disconnectAttempt A ok, SockEvent.install B]) := by
  simp [SocketManager.set_agent_session, hA, str_data_not_empty A hne, hAB]

/-- C6 witness: a concrete eviction, under both disconnect outcomes. -/
theorem set_agent_session_evicts_witness :
    (SockState.mk ["a", "b"] (some "a")).agent_sid = some "a" ∧
    SocketManager.set_agent_session (SockState.mk ["a", "b"] (some "a")) "b" false =
      (SockState.mk ["a", "b"] (some "b"),
       [SockEvent.disconnectAttempt "a" false, SockEvent.install "b"]) :=
  ⟨rfl, set_agent_session_evicts (SockState.mk ["a", "b"] (some "a")) "a" "b" false rfl
    (by decide) (by decide)⟩

/-! ## addTask versus createTask -/

/-- C8: with no current task, `addTask` is exactly `createTask`; with a
current task and a no-merge decision, the current task is dropped in
place and `addTask` is again exactly `createTask` for the new
description, whose result is a fresh task for that description installed
as current. -/
theorem add_task_no_merge_creates (env : Env) (d g : String)
    (det : Option (List String)) (st : TMState) :
    (st.current_task = none →
      TaskManager.add_task env d g det st = TaskManager.create_task env d g det st) ∧
    (∀ (t : Task) (r : String), st.current_task = some t →
      TaskMerger.can_merge_tasks t d env.mergeReply = .ok (false, r) →
      TaskManager.add_task env d g det st = TaskManager.create_task env d g det st) ∧
    (∃ task : Task,
      (TaskManager.create_task env d g det st).1 = .ok task ∧
      (TaskManager.create_task env d g det st).2.current_task = some task ∧
      task.description = d) := by
  refine ⟨?_, ?_, ⟨_, rfl, rfl, rfl⟩⟩
  · intro h
    simp [TaskManager.add_task, h]
  · intro t r ht hcm
    simp [TaskManager.add_task, ht, hcm]

/-- C8 witness: a concrete no-merge reply makes `addTask` perform exactly
`createTask` on a concrete populated state. -/
theorem add_task_no_merge_creates_witness :
    (TMState.mk (some (Task.mk "t1" "old" "og" [] [] [] "p.md" 3)) [] "sp" 3).current_task
      = some (Task.mk "t1" "old" "og" [] [] [] "p.md" 3) ∧
    TaskMerger.can_merge_tasks (Task.mk "t1" "old" "og" [] [] [] "p.md" 3) "new task"
      (Env.mk "id" "ab" "cdef" "STEP: s\nREASONING: r" "NO_MERGE: different" "T").mergeReply
      = .ok (false, "different") ∧
    TaskManager.add_task (Env.mk "id" "ab" "cdef" "STEP: s\nREASONING: r" "NO_MERGE: different" "T")
        "new task" "g" none (TMState.mk (some (Task.mk "t1" "old" "og" [] [] [] "p.md" 3)) [] "sp" 3) =
      TaskManager.create_task (Env.mk "id" "ab" "cdef" "STEP: s\nREASONING: r" "NO_MERGE: different" "T")
        "new task" "g" none (TMState.mk (some (Task.mk "t1" "old" "og" [] [] [] "p.md" 3)) [] "sp" 3) :=
  ⟨rfl, rfl,
   (add_task_no_merge_creates (Env.mk "id" "ab" "cdef" "STEP: s\nREASONING: r" "NO_MERGE: different" "T")
      "new task" "g" none (TMState.mk (some (Task.mk "t1" "old" "og" [] [] [] "p.md" 3)) [] "sp" 3)).2.1
     (Task.mk "t1" "old" "og" [] [] [] "p.md" 3) "different" rfl rfl⟩

/-! ## Orchestrator index handling -/

/-- C2 counterexample: on a one-step task, index `-2` is out of bounds
for the step sequence, yet the call raises the plain `IndexError` of
`steps[-2]`, not the `ValueError("Invalid step index")` that is the
spec's InvalidStepIndex (the state is still left unchanged). -/
theorem update_step_status_neg_oob_cex :
    TaskManager.update_step_status (Env.mk "id" "ab" "cdef" "" "" "T")
      (TMState.mk (some (Task.mk "t1" "d" "g" [] [] [Step.mk "s" "r" .OPEN none 0] "p.md" 3)) [] "sp" 3)
      (-2) .COMPLETED none
      = (.error .indexError,
         TMState.mk (some (Task.mk "t1" "d" "g" [] [] [Step.mk "s" "r" .OPEN none 0] "p.md" 3)) [] "sp" 3) ∧
    (Except.error TMErr.indexError : Except TMErr Task) ≠ .error .invalidStepIndex := by
  refine ⟨rfl, fun h => ?_⟩
  exact TMErr.noConfusion (Except.error.inj h)

/-- C2 (amended: only the no-current-task case and `index ≥ step count`
raise InvalidStepIndex; an index below `-(step count)` raises a plain
out-of-range index error instead): in all three cases the call returns
with the orchestrator state — current task and snapshot files — exactly
as it was. -/
theorem update_step_status_invalid_index (env : Env) (st : TMState) (i : Int)
    (ns : StepStatus) (fd : Option String) :
    (st.current_task = none →
      TaskManager.update_step_status env st i ns fd = (.error .invalidStepIndex, st)) ∧
    (∀ t : Task, st.current_task = some t → (t.steps.length : Int) ≤ i →
      TaskManager.update_step_status env st i ns fd = (.error .invalidStepIndex, st)) ∧
    (∀ t : Task, st.current_task = some t → i < -(t.steps.length : Int) →
      TaskManager.update_step_status env st i ns fd = (.error .indexError, st)) := by
  refine ⟨?_, ?_, ?_⟩
  · intro h
    simp [TaskManager.update_step_status, h]
  · intro t ht hle
    simp only [TaskManager.update_step_status, ht]
    rw [if_pos hle]
  · intro t ht hlt
    have h1 : ¬ ((t.steps.length : Int) ≤ i) := by omega
    have h2 : ¬ (0 ≤ i) := by omega
    have h3 : ¬ (0 ≤ i + (t.steps.length : Int)) := by omega
    simp [TaskManager.update_step_status, ht, h1, pyGetL, pyIdx, h2, h3]

/-- C2 witness: both InvalidStepIndex cases on concrete states, each
leaving the state untouched. -/
theorem update_step_status_invalid_index_witness :
    (TMState.mk none [] "sp" 3).current_task = none ∧
    TaskManager.update_step_status (Env.mk "id" "ab" "cdef" "" "" "T")
      (TMState.mk none [] "sp" 3) 0 .COMPLETED none
      = (.error .invalidStepIndex, TMState.mk none [] "sp" 3) ∧
    TaskManager.update_step_status (Env.mk "id" "ab" "cdef" "" "" "T")
      (TMState.mk (some (Task.mk "t1" "d" "g" [] [] [Step.mk "s" "r" .OPEN none 0] "p.md" 3)) [] "sp" 3)
      5 .COMPLETED none
      = (.error .invalidStepIndex,
         TMState.mk (some (Task.mk "t1" "d" "g" [] [] [Step.mk "s" "r" .OPEN none 0] "p.md" 3)) [] "sp" 3) :=
  ⟨rfl,
   (update_step_status_invalid_index (Env.mk "id" "ab" "cdef" "" "" "T")
     (TMState.mk none [] "sp" 3) 0 .COMPLETED none).1 rfl,
   (update_step_status_invalid_index (Env.mk "id" "ab" "cdef" "" "" "T")
     (TMState.mk (some (Task.mk "t1" "d" "g" [] [] [Step.mk "s" "r" .OPEN none 0] "p.md" 3)) [] "sp" 3)
     5 .COMPLETED none).2.1
     (Task.mk "t1" "d" "g" [] [] [Step.mk "s" "r" .OPEN none 0] "p.md" 3) rfl (by decide)⟩

/-- C9: a negative index `i` with `-n ≤ i < 0` on a current task with `n`
steps is neither an absence nor an error: `get_step` returns the step at
position `n + i`, and `update_step_status` applies the transition at
position `n + i` and writes the regenerated snapshot through. -/
theorem negative_index_access (env : Env) (st : TMState) (t : Task) (i : Int)
    (ht : st.current_task = some t) (_hn : 0 < t.steps.length)
    (hlo : -(t.steps.length : Int) ≤ i) (hhi : i < 0) :
    ∃ (j : Nat) (s : Step),
      (j : Int) = (t.steps.length : Int) + i ∧
      t.steps.get? j = some s ∧
      TaskManager.get_step st i = .ok (some s) ∧
      (∀ (ns : StepStatus) (fd : Option String),
        TaskManager.update_step_status env st i ns fd =
          (.ok { t with steps := t.steps.set j (StepManager.update_step_status s ns fd) },
           { st with
             current_task := some { t with steps := t.steps.set j (StepManager.update_step_status s ns fd) },
             files := setFile st.files t.scratchpad_path
               (generate_markdown env.ts
                 { t with steps := t.steps.set j (StepManager.update_step_status s ns fd) }) })) := by
  have hidx : pyIdx t.steps.length i = some (i + (t.steps.length : Int)).toNat := by
    simp only [pyIdx]
    rw [if_neg (by omega), if_pos (by omega)]
  have hj : (((i + (t.steps.length : Int)).toNat : Nat) : Int) = (t.steps.length : Int) + i := by
    omega
  have hjlt : (i + (t.steps.length : Int)).toNat < t.steps.length := by omega
  obtain ⟨s, hs⟩ : ∃ s, t.steps.get? (i + (t.steps.length : Int)).toNat = some s := by
    cases hh : t.steps.get? (i + (t.steps.length : Int)).toNat with
    | none =>
      have := List.get?_eq_none.mp hh
      omega
    | some s => exact ⟨s, rfl⟩
  have hs' : t.steps[(i + (t.steps.length : Int)).toNat]? = some s := by
    rw [← List.get?_eq_getElem?]
    exact hs
  refine ⟨(i + (t.steps.length : Int)).toNat, s, hj, hs, ?_, ?_⟩
  · simp only [TaskManager.get_step, ht]
    rw [if_neg (by omega)]
    simp [pyGetL, hidx, hs']
  · intro ns fd
    simp only [TaskManager.update_step_status, ht]
    rw [if_neg (by omega)]
    simp [pyGetL, pySetL, hidx, hs']

/-- C9 witness: on a two-step task, `get_step (-1)` returns the second
step and `update_step_status (-1)` rewrites position 1 and the snapshot. -/
theorem negative_index_access_witness :
    TaskManager.get_step
      (TMState.mk (some (Task.mk "t1" "d" "g" [] []
        [Step.mk "s1" "r1" .OPEN none 0, Step.mk "s2" "r2" .OPEN none 0] "p.md" 3)) [] "sp" 3) (-1)
      = .ok (some (Step.mk "s2" "r2" .OPEN none 0)) := by
  obtain ⟨j, s, hj, hs, hget, hupd⟩ :=
    negative_index_access (Env.mk "id" "ab" "cdef" "" "" "T")
      (TMState.mk (some (Task.mk "t1" "d" "g" [] []
        [Step.mk "s1" "r1" .OPEN none 0, Step.mk "s2" "r2" .OPEN none 0] "p.md" 3)) [] "sp" 3)
      (Task.mk "t1" "d" "g" [] []
        [Step.mk "s1" "r1" .OPEN none 0, Step.mk "s2" "r2" .OPEN none 0] "p.md" 3)
      (-1) rfl (by decide) (by decide) (by decide)
  have hj1 : j = 1 := by
    simp at hj
    omega
  subst hj1
  have hss : s = Step.mk "s2" "r2" .OPEN none 0 := by
    simp [List.get?] at hs
    exact hs.symm
  rwa [hss] at hget

/-! ## Planner-reply parser versus the spec grammar -/

theorem parseLoop_clean : ∀ (lines : List String) (acc : List Step) (d r : Option String),
    parseLoop lines acc d r =
      acc ++ loopClean ((lines.map pyStrip).filter (fun l => !l.data.isEmpty)) d r
  | [], acc, d, r => by simp [parseLoop, loopClean]
  | line :: rest, acc, d, r => by
    cases he : (pyStrip line).data.isEmpty with
    | true =>
      simp only [parseLoop, he, if_true, List.map_cons, List.filter_cons, Bool.not_true,
        Bool.false_eq_true, if_false]
      exact parseLoop_clean rest acc d r
    | false =>
      simp only [parseLoop, he, Bool.false_eq_true, if_false, List.map_cons, List.filter_cons,
        Bool.not_false, if_true]
      by_cases hstep : pyStarts (pyStrip line) "STEP:"
      · simp only [hstep, if_true, loopClean, isStepLine]
        rw [parseLoop_clean rest (acc ++ flushStep d r) (some (pyStrip (pyDrop (pyStrip line) 5))) none]
        simp
      · by_cases hreas : pyStarts (pyStrip line) "REASONING:"
        · simp only [hstep, Bool.false_eq_true, if_false, hreas, if_true, loopClean, isStepLine]
          exact parseLoop_clean rest acc d (some (pyStrip (pyDrop (pyStrip line) 10)))
        · simp only [hstep, Bool.false_eq_true, if_false, hreas, loopClean, isStepLine]
          exact parseLoop_clean rest acc d r

theorem mem_flushStep {s : Step} {d r : Option String} (h : s ∈ flushStep d r) :
    s.status = .OPEN ∧ s.retry_count = 0 := by
  unfold flushStep at h
  split at h
  · simp only [List.mem_singleton] at h
    subst h
    exact ⟨rfl, rfl⟩
  · simp at h

theorem mem_loopClean : ∀ (ls : List String) (d r : Option String) (s : Step),
    s ∈ loopClean ls d r → s.status = .OPEN ∧ s.retry_count = 0
  | [], _, _, _, h => mem_flushStep h
  | l :: ls, d, r, s, h => by
    unfold loopClean at h
    split at h
    · rcases List.mem_append.mp h with h1 | h2
      · exact mem_flushStep h1
      · exact mem_loopClean ls _ _ s h2
    · split at h
      · exact mem_loopClean ls _ _ s h
      · exact mem_loopClean ls _ _ s h

theorem emitBlock_flush (d : String) (pre : List String) :
    emitBlock d pre = flushStep (some d) (lastReasoningOf pre) := by
  unfold emitBlock flushStep
  cases lastReasoningOf pre with
  | none => simp [pyTruthy]
  | some r => simp [pyTruthy]

theorem lastReasoning_cons_reas (l : String) (pre : List String)
    (h : pyStarts l "REASONING:" = true) :
    lastReasoningOf (l :: pre) =
      (lastReasoningOf pre).orElse (fun _ => some (pyStrip (pyDrop l 10))) := by
  have hfc : List.filter (fun x => pyStarts x "REASONING:") (l :: pre)
      = l :: List.filter (fun x => pyStarts x "REASONING:") pre := by
    simp [List.filter_cons, h]
  unfold lastReasoningOf
  rw [hfc]
  cases hf : List.filter (fun x => pyStarts x "REASONING:") pre with
  | nil => simp
  | cons y ys =>
    cases hgl : (y :: ys).getLast? with
    | none => simp [List.getLast?_eq_none_iff] at hgl
    | some v => simp [hgl]

theorem lastReasoning_cons_other (l : String) (pre : List String)
    (h : ¬ pyStarts l "REASONING:" = true) :
    lastReasoningOf (l :: pre) = lastReasoningOf pre := by
  have hfc : List.filter (fun x => pyStarts x "REASONING:") (l :: pre)
      = List.filter (fun x => pyStarts x "REASONING:") pre := by
    simp [List.filter_cons, h]
  unfold lastReasoningOf
  rw [hfc]

theorem loopClean_eq : ∀ (ls : List String) (d r : Option String),
    loopClean ls d r =
      flushStep d ((lastReasoningOf (ls.takeWhile (fun x => !isStepLine x))).orElse (fun _ => r))
        ++ specBlocks (ls.dropWhile (fun x => !isStepLine x))
  | [], d, r => by
    simp only [List.takeWhile_nil, List.dropWhile_nil, specBlocks, List.append_nil]
    rfl
  | l :: ls, d, r => by
    by_cases hstep : isStepLine l
    · rw [List.takeWhile_cons_of_neg (by simp [hstep]),
        List.dropWhile_cons_of_neg (by simp [hstep])]
      have h0 : loopClean (l :: ls) d r =
          flushStep d r ++ loopClean ls (some (pyStrip (pyDrop l 5))) none := by
        simp only [loopClean]
        rw [if_pos hstep]
      have h1 : specBlocks (l :: ls) =
          emitBlock (pyStrip (pyDrop l 5)) (ls.takeWhile (fun x => !isStepLine x))
            ++ specBlocks (ls.dropWhile (fun x => !isStepLine x)) := by
        simp only [specBlocks]
        rw [if_pos hstep]
      have h2 : (lastReasoningOf ([] : List String)).orElse (fun _ => r) = r := rfl
      rw [h0, loopClean_eq ls (some (pyStrip (pyDrop l 5))) none, h2, h1, emitBlock_flush]
      have h3 : (lastReasoningOf (ls.takeWhile (fun x => !isStepLine x))).orElse
          (fun _ => (none : Option String))
          = lastReasoningOf (ls.takeWhile (fun x => !isStepLine x)) := by
        cases lastReasoningOf (ls.takeWhile (fun x => !isStepLine x)) <;> rfl
      rw [h3]
    · rw [List.takeWhile_cons_of_pos (by simp [hstep]),
        List.dropWhile_cons_of_pos (by simp [hstep])]
      by_cases hreas : pyStarts l "REASONING:"
      · have h0 : loopClean (l :: ls) d r = loopClean ls d (some (pyStrip (pyDrop l 10))) := by
          simp only [loopClean]
          rw [if_neg hstep, if_pos hreas]
        rw [h0, loopClean_eq ls d (some (pyStrip (pyDrop l 10))),
          lastReasoning_cons_reas l _ hreas]
        have h4 : ((lastReasoningOf (ls.takeWhile (fun x => !isStepLine x))).orElse
              (fun _ => some (pyStrip (pyDrop l 10)))).orElse (fun _ => r)
            = (lastReasoningOf (ls.takeWhile (fun x => !isStepLine x))).orElse
              (fun _ => some (pyStrip (pyDrop l 10))) := by
          cases lastReasoningOf (ls.takeWhile (fun x => !isStepLine x)) <;> rfl
        rw [h4]
      · have h0 : loopClean (l :: ls) d r = loopClean ls d r := by
          simp only [loopClean]
          rw [if_neg hstep, if_neg hreas]
        rw [h0, loopClean_eq ls d r, lastReasoning_cons_other l _ hreas]

theorem specBlocks_dropWhile : ∀ ls : List String,
    specBlocks (ls.dropWhile (fun x => !isStepLine x)) = specBlocks ls
  | [] => rfl
  | l :: ls => by
    by_cases hstep : isStepLine l
    · rw [List.dropWhile_cons_of_neg (by simp [hstep])]
    · rw [List.dropWhile_cons_of_pos (by simp [hstep])]
      rw [specBlocks_dropWhile ls]
      simp only [specBlocks, hstep, Bool.false_eq_true, if_false]

/-- C4 counterexample: the reply `"STEP:\nREASONING: why"` is a single
step block with both a STEP line and a subsequent REASONING line, so the
claim demands exactly one emitted step, yet the parse is empty (the
stripped description `""` is falsy in the source's emission guard);
likewise an empty REASONING payload suppresses emission. -/
theorem parse_steps_empty_fields_cex :
    (StepManager.parse_steps_from_llm_response "STEP:\nREASONING: why").length ≠ 1 ∧
    StepManager.parse_steps_from_llm_response "STEP:\nREASONING: why" = [] ∧
    StepManager.parse_steps_from_llm_response "STEP: a\nREASONING:" = [] := by
  refine ⟨by decide, by decide, by decide⟩

/-- C4 (amended: a block is emitted only when its stripped STEP
description is nonempty and the stripped payload of its last REASONING
line is nonempty; blocks violating this — including blocks with no
REASONING line at all — are discarded without error): the parse equals
the spec's block grammar read of the reply, in input order, and every
emitted step starts at status OPEN with retry count 0; an empty or fully
malformed reply yields the empty list since it has no emittable block. -/
theorem parse_steps_spec_correct (response : String) :
    StepManager.parse_steps_from_llm_response response = parse_steps_spec response ∧
    (∀ s ∈ StepManager.parse_steps_from_llm_response response,
      s.status = .OPEN ∧ s.retry_count = 0) := by
  have h1 : StepManager.parse_steps_from_llm_response response =
      loopClean (cleanLines response) none none := by
    rw [StepManager.parse_steps_from_llm_response, parseLoop_clean]
    rfl
  constructor
  · rw [h1, loopClean_eq]
    have h2 : ∀ x : Option String, flushStep none x = [] := fun x => rfl
    rw [h2, List.nil_append, parse_steps_spec, specBlocks_dropWhile]
  · intro s hs
    rw [h1] at hs
    exact mem_loopClean _ _ _ s hs

/-- C4 witness: the spec's own example reply parses to its two steps, in
order, matching the spec grammar, with the first step OPEN at retry 0. -/
theorem parse_steps_spec_correct_witness :
    StepManager.parse_steps_from_llm_response
        "STEP: Open homepage\nREASONING: need entry point\n\nSTEP: Search\nREASONING: find info"
      = parse_steps_spec
        "STEP: Open homepage\nREASONING: need entry point\n\nSTEP: Search\nREASONING: find info" ∧
    (Step.mk "Open homepage" "need entry point" .OPEN none 0).status = .OPEN ∧
    (Step.mk "Open homepage" "need entry point" .OPEN none 0).retry_count = 0 :=
  ⟨(parse_steps_spec_correct
      "STEP: Open homepage\nREASONING: need entry point\n\nSTEP: Search\nREASONING: find info").1,
   (parse_steps_spec_correct
      "STEP: Open homepage\nREASONING: need entry point\n\nSTEP: Search\nREASONING: find info").2
     (Step.mk "Open homepage" "need entry point" .OPEN none 0) (by decide)⟩

/-! ## Scratchpad round trip: line and prefix machinery -/

theorem dropPre_self_append : ∀ (p cs : List Char), dropPre p (p ++ cs) = some cs
  | [], _ => rfl
  | q :: qs, cs => by
    simp only [List.cons_append, dropPre, if_pos rfl]
    exact dropPre_self_append qs cs

theorem dropPre_head_ne (p : Char) (ps : List Char) (c : Char) (cs : List Char)
    (h : ¬ p = c) : dropPre (p :: ps) (c :: cs) = none := by
  simp [dropPre, h]

theorem dropPre_nil_none (p : Char) (ps : List Char) : dropPre (p :: ps) [] = none := rfl

theorem splitLines_no_nl : ∀ (p : List Char), '\n' ∉ p → splitLines p = [p]
  | [], _ => rfl
  | c :: cs, h => by
    have hc : ¬ (c = '\n') := fun hh => h (hh ▸ List.mem_cons_self c cs)
    have ht : '\n' ∉ cs := fun hh => h (List.mem_cons_of_mem c hh)
    simp only [splitLines, splitLines_no_nl cs ht, if_neg hc]
    rfl

theorem splitLines_append_nl : ∀ (p : List Char), '\n' ∉ p →
    ∀ cs : List Char, splitLines (p ++ '\n' :: cs) = p :: splitLines cs
  | [], _, cs => by simp [splitLines]
  | c :: p, h, cs => by
    have hc : ¬ (c = '\n') := fun hh => h (hh ▸ List.mem_cons_self c p)
    have ht : '\n' ∉ p := fun hh => h (List.mem_cons_of_mem c hh)
    have hrec : splitLines (p.append ('\n' :: cs)) = p :: splitLines cs :=
      splitLines_append_nl p ht cs
    simp only [List.cons_append, splitLines]
    rw [hrec, if_neg hc]
    rfl

theorem inter_cons_cons (a b : List Char) (t : List (List Char)) :
    List.intercalate ['\n'] (a :: b :: t) = a ++ '\n' :: List.intercalate ['\n'] (b :: t) := by
  simp [List.intercalate, List.intersperse_cons_cons]

theorem splitInter : ∀ (P : List (List Char)), P ≠ [] → (∀ p ∈ P, '\n' ∉ p) →
    splitLines (List.intercalate ['\n'] P) = P
  | [], h, _ => absurd rfl h
  | [p], _, hp => by
    have : List.intercalate ['\n'] [p] = p := by simp [List.intercalate]
    rw [this]
    exact splitLines_no_nl p (hp p (List.mem_singleton.mpr rfl))
  | p :: q :: t, _, hp => by
    rw [inter_cons_cons, splitLines_append_nl p (hp p (by simp)),
      splitInter (q :: t) (by simp) (fun x hx => hp x (List.mem_cons_of_mem p hx))]

theorem inter_goal_split (a b r0 : List Char) (rest : List (List Char)) :
    List.intercalate ['\n'] (a :: (b ++ ['\n']) :: r0 :: rest)
      = List.intercalate ['\n'] (a :: b :: [] :: r0 :: rest) := by
  rw [inter_cons_cons, inter_cons_cons, inter_cons_cons, inter_cons_cons]
  simp [inter_cons_cons]

/-! ## Decimal digits of step numbers contain no newline -/

theorem digitChar_not_nl (m : Nat) (h : m < 10) : Nat.digitChar m ≠ '\n' := by
  interval_cases m <;> decide

theorem toDigitsCore_not_nl : ∀ (fuel n : Nat) (acc : List Char),
    (∀ c ∈ acc, c ≠ '\n') → ∀ c ∈ Nat.toDigitsCore 10 fuel n acc, c ≠ '\n' := by
  intro fuel
  induction fuel with
  | zero =>
    intro n acc hacc c hc
    exact hacc c hc
  | succ f ih =>
    intro n acc hacc c hc
    rw [Nat.toDigitsCore] at hc
    by_cases hq : n / 10 = 0
    · rw [if_pos hq] at hc
      rcases List.mem_cons.mp hc with h1 | h2
      · exact h1 ▸ digitChar_not_nl (n % 10) (Nat.mod_lt n (by norm_num))
      · exact hacc c h2
    · rw [if_neg hq] at hc
      refine ih (n / 10) (Nat.digitChar (n % 10) :: acc) ?_ c hc
      intro x hx
      rcases List.mem_cons.mp hx with h1 | h2
      · exact h1 ▸ digitChar_not_nl (n % 10) (Nat.mod_lt n (by norm_num))
      · exact hacc x h2

theorem repr_no_nl (n : Nat) : '\n' ∉ (Nat.repr n).data := by
  intro h
  have hd : (Nat.repr n).data = Nat.toDigitsCore 10 (n + 1) n [] := rfl
  rw [hd] at h
  exact toDigitsCore_not_nl (n + 1) n [] (by simp) '\n' h rfl

/-! ## Reader line dispatch -/

theorem readLoop_skip (k : Nat) (ls : List (List Char))
    (cur : Option (List Char × Option StepStatus)) (l : List Char)
    (h1 : dropPre "### Step ".data l = none) (h2 : dropPre "Status: ".data l = none) :
    readLoop k (l :: ls) cur = readLoop k ls cur := by
  simp only [readLoop, h1, h2]

theorem dp_hdr_other (c : Char) (cs : List Char) (h : ¬ c = '#') :
    dropPre "### Step ".data (c :: cs) = none := by
  show dropPre ('#' :: _) (c :: cs) = none
  exact dropPre_head_ne _ _ _ _ (fun hh => h hh.symm)

theorem dp_status_other (c : Char) (cs : List Char) (h : ¬ c = 'S') :
    dropPre "Status: ".data (c :: cs) = none := by
  show dropPre ('S' :: _) (c :: cs) = none
  exact dropPre_head_ne _ _ _ _ (fun hh => h hh.symm)

theorem skip_char (k : Nat) (ls : List (List Char))
    (cur : Option (List Char × Option StepStatus)) (c : Char) (cs : List Char)
    (h1 : ¬ c = '#') (h2 : ¬ c = 'S') :
    readLoop k ((c :: cs) :: ls) cur = readLoop k ls cur :=
  readLoop_skip k ls cur (c :: cs) (dp_hdr_other c cs h1) (dp_status_other c cs h2)

theorem skip_hash_space (k : Nat) (ls : List (List Char))
    (cur : Option (List Char × Option StepStatus)) (cs : List Char) :
    readLoop k (('#' :: ' ' :: cs) :: ls) cur = readLoop k ls cur :=
  readLoop_skip k ls cur _ (by simp [dropPre]) (by simp [dropPre])

theorem skip_hash2 (k : Nat) (ls : List (List Char))
    (cur : Option (List Char × Option StepStatus)) (cs : List Char) :
    readLoop k (('#' :: '#' :: ' ' :: cs) :: ls) cur = readLoop k ls cur :=
  readLoop_skip k ls cur _ (by simp [dropPre]) (by simp [dropPre])

theorem skip_empty (k : Nat) (ls : List (List Char))
    (cur : Option (List Char × Option StepStatus)) :
    readLoop k ([] :: ls) cur = readLoop k ls cur :=
  readLoop_skip k ls cur [] rfl rfl

theorem parseStatus_roundtrip (st : StepStatus) :
    parseStatusChars (statusValue st).data = some st := by
  cases st <;> rfl

theorem dp_hdr_none_status (v : List Char) :
    dropPre "### Step ".data ("Status: ".data ++ v) = none := by
  simp [dropPre]

theorem skip_reasoning (k : Nat) (ls : List (List Char))
    (cur : Option (List Char × Option StepStatus)) (s : String) :
    readLoop k (("Reasoning: " ++ s).data :: ls) cur = readLoop k ls cur :=
  skip_char k ls cur 'R'
    ('e' :: 'a' :: 's' :: 'o' :: 'n' :: 'i' :: 'n' :: 'g' :: ':' :: ' ' :: s.data)
    (by decide) (by decide)

theorem skip_failure (k : Nat) (ls : List (List Char))
    (cur : Option (List Char × Option StepStatus)) (s : String) :
    readLoop k (("Failure Details: " ++ s).data :: ls) cur = readLoop k ls cur :=
  skip_char k ls cur 'F'
    ('a' :: 'i' :: 'l' :: 'u' :: 'r' :: 'e' :: ' ' :: 'D' :: 'e' :: 't' :: 'a' :: 'i' ::
      'l' :: 's' :: ':' :: ' ' :: s.data)
    (by decide) (by decide)

theorem read_status_line (k : Nat) (ls : List (List Char)) (d : List Char)
    (o : Option StepStatus) (st : StepStatus) :
    readLoop k (("Status: " ++ statusValue st).data :: ls) (some (d, o))
      = readLoop k ls (some (d, some st)) := by
  have e3 : ("Status: " ++ statusValue st).data = "Status: ".data ++ (statusValue st).data := rfl
  have h1 : dropPre "### Step ".data ("Status: ".data ++ (statusValue st).data) = none :=
    dp_hdr_none_status _
  have h2 : dropPre "Status: ".data ("Status: ".data ++ (statusValue st).data)
      = some (statusValue st).data := dropPre_self_append _ _
  rw [e3]
  simp only [readLoop, h1, h2, parseStatus_roundtrip]

theorem read_header_line (k : Nat) (ls : List (List Char))
    (cur : Option (List Char × Option StepStatus)) (s : String) :
    readLoop k (("### Step " ++ Nat.repr k ++ ": " ++ s).data :: ls) cur
      = flushBlock cur ++ readLoop (k + 1) ls (some (s.data, none)) := by
  have e1 : ("### Step " ++ Nat.repr k ++ ": " ++ s).data
      = "### Step ".data ++ ((Nat.repr k).data ++ (": ".data ++ s.data)) := by
    simp [List.append_assoc]
  have h1 : dropPre "### Step ".data
      ("### Step ".data ++ ((Nat.repr k).data ++ (": ".data ++ s.data)))
      = some ((Nat.repr k).data ++ (": ".data ++ s.data)) := dropPre_self_append _ _
  have h2 : dropPre (Nat.repr k).data ((Nat.repr k).data ++ (": ".data ++ s.data))
      = some (": ".data ++ s.data) := dropPre_self_append _ _
  have h3 : dropPre ": ".data (": ".data ++ s.data) = some s.data := dropPre_self_append _ _
  rw [e1]
  simp only [readLoop, h1, h2, h3]

theorem readLoop_steps : ∀ (steps : List Step) (k : Nat)
    (cur : Option (List Char × Option StepStatus)),
    readLoop k ((stepLines k steps).map String.data) cur
      = flushBlock cur ++ steps.map (fun s => (s.description, some s.status))
  | [], k, cur => by simp [stepLines, readLoop]
  | s :: rest, k, cur => by
    have heta : (⟨s.description.data⟩ : String) = s.description := rfl
    by_cases hf : pyTruthy s.failure_details
    · simp only [stepLines, hf, if_true, List.append_assoc, List.cons_append, List.nil_append,
        List.map_cons, List.map_append]
      rw [read_header_line, skip_reasoning, read_status_line, skip_failure, skip_empty,
        readLoop_steps rest (k + 1) (some (s.description.data, some s.status))]
      simp [flushBlock, heta]
    · simp only [stepLines, hf, Bool.false_eq_true, if_false, List.append_assoc,
        List.cons_append, List.nil_append, List.map_cons, List.map_append]
      rw [read_header_line, skip_reasoning, read_status_line, skip_empty,
        readLoop_steps rest (k + 1) (some (s.description.data, some s.status))]
      simp [flushBlock, heta]

/-! ## Newline-freedom of the generated lines -/

theorem noNl_append {a b : List Char} (ha : '\n' ∉ a) (hb : '\n' ∉ b) : '\n' ∉ a ++ b := by
  simp only [List.mem_append]
  intro h
  rcases h with h | h
  · exact ha h
  · exact hb h

theorem stepLines_no_nl : ∀ (steps : List Step) (k : Nat),
    (∀ s ∈ steps, noNl s.description ∧ noNl s.reasoning ∧ noNl (s.failure_details.getD "")) →
    ∀ p ∈ stepLines k steps, '\n' ∉ p.data
  | [], _, _, p, hp => by simp [stepLines] at hp
  | s :: rest, k, h, p, hp => by
    obtain ⟨hd, hr, hf⟩ := h s (List.mem_cons_self s rest)
    have hrest : ∀ s' ∈ rest, noNl s'.description ∧ noNl s'.reasoning ∧
        noNl (s'.failure_details.getD "") :=
      fun s' hs' => h s' (List.mem_cons_of_mem s hs')
    have hhdr : '\n' ∉ ("### Step " ++ Nat.repr k ++ ": " ++ s.description).data := by
      show '\n' ∉ (("### Step ".data ++ (Nat.repr k).data) ++ ": ".data) ++ s.description.data
      exact noNl_append (noNl_append (noNl_append (by decide) (repr_no_nl k)) (by decide)) hd
    have hreas : '\n' ∉ ("Reasoning: " ++ s.reasoning).data := by
      show '\n' ∉ "Reasoning: ".data ++ s.reasoning.data
      exact noNl_append (by decide) hr
    have hstat : '\n' ∉ ("Status: " ++ statusValue s.status).data := by
      show '\n' ∉ "Status: ".data ++ (statusValue s.status).data
      refine noNl_append (by decide) ?_
      cases s.status <;> decide
    have hfail : '\n' ∉ ("Failure Details: " ++ s.failure_details.getD "").data := by
      show '\n' ∉ "Failure Details: ".data ++ (s.failure_details.getD "").data
      exact noNl_append (by decide) hf
    simp only [stepLines, List.append_assoc, List.cons_append, List.nil_append,
      List.mem_cons, List.mem_append, List.mem_singleton, List.not_mem_nil, false_or,
      or_false] at hp
    rcases hp with hp | hp | hp | hp | hp | hp
    · exact hp ▸ hhdr
    · exact hp ▸ hreas
    · exact hp ▸ hstat
    · by_cases hft : pyTruthy s.failure_details
      · rw [if_pos hft] at hp
        exact (List.mem_singleton.mp hp) ▸ hfail
      · rw [if_neg hft] at hp
        simp at hp
    · subst hp
      decide
    · exact stepLines_no_nl rest (k + 1) hrest p hp

theorem docFlat_no_nl (ts : String) (task : Task) (h : TaskLineSafe ts task) :
    ∀ p ∈ (docFlatLines ts task).map String.data, '\n' ∉ p := by
  obtain ⟨hts, hdesc, hgoal, hdet, hnot, hsteps⟩ := h
  intro p hp
  simp only [docFlatLines, List.map_append, List.map_cons, List.map_nil, List.append_assoc,
    List.cons_append, List.nil_append, List.singleton_append, List.mem_cons, List.mem_append,
    List.mem_map] at hp
  rcases hp with hp | hp | hp | hp | ⟨x, hx, hp⟩ | hp | hp | ⟨x, hx, hp⟩ | hp | hp | hp | hp | hp |
    ⟨a, ha, hp⟩
  · subst hp
    show '\n' ∉ "# Task: ".data ++ task.description.data
    exact noNl_append (by decide) hdesc
  · subst hp
    show '\n' ∉ "Current Goal: ".data ++ task.current_goal.data
    exact noNl_append (by decide) hgoal
  · subst hp
    decide
  · subst hp
    decide
  · obtain ⟨a, ha, rfl⟩ := hx
    subst hp
    show '\n' ∉ "- ".data ++ a.data
    exact noNl_append (by decide) (hdet a ha)
  · subst hp
    decide
  · subst hp
    decide
  · obtain ⟨a, ha, rfl⟩ := hx
    subst hp
    show '\n' ∉ "- ".data ++ a.data
    exact noNl_append (by decide) (hnot a ha)
  · subst hp
    decide
  · subst hp
    decide
  · subst hp
    show '\n' ∉ (("- [".data ++ ts.data) ++ "] Task initiated: ".data) ++ task.description.data
    exact noNl_append (noNl_append (noNl_append (by decide) hts) (by decide)) hdesc
  · subst hp
    decide
  · subst hp
    decide
  · subst hp
    exact stepLines_no_nl task.steps 1 hsteps a ha

/-! ## Reading the whole generated document -/

theorem skip_capc (k : Nat) (ls : List (List Char))
    (cur : Option (List Char × Option StepStatus)) (cs : List Char) :
    readLoop k (('C' :: cs) :: ls) cur = readLoop k ls cur :=
  skip_char k ls cur 'C' cs (by decide) (by decide)

theorem skip_dash (k : Nat) (ls : List (List Char))
    (cur : Option (List Char × Option StepStatus)) (cs : List Char) :
    readLoop k (('-' :: cs) :: ls) cur = readLoop k ls cur :=
  skip_char k ls cur '-' cs (by decide) (by decide)

theorem readLoop_skip_bullets : ∀ (xs : List String) (k : Nat) (ls : List (List Char))
    (cur : Option (List Char × Option StepStatus)),
    readLoop k ((xs.map (fun x => "- " ++ x)).map String.data ++ ls) cur = readLoop k ls cur
  | [], _, _, _ => rfl
  | x :: xs, k, ls, cur => by
    have e : ("- " ++ x).data = '-' :: (' ' :: x.data) := rfl
    simp only [List.map_cons, List.cons_append, e, skip_dash]
    exact readLoop_skip_bullets xs k ls cur

theorem doc_lines (ts : String) (task : Task) (h : TaskLineSafe ts task) :
    splitLines (generate_markdown ts task).data = (docFlatLines ts task).map String.data := by
  rw [show (generate_markdown ts task).data
      = List.intercalate ['\n']
          ((("# Task: " ++ task.description).data)
            :: (("Current Goal: " ++ task.current_goal).data ++ ['\n'])
            :: ("## Details".data)
            :: ((task.details.map (fun d => "- " ++ d) ++ [""]
                  ++ ["## Notes"] ++ task.notes.map (fun n => "- " ++ n)
                  ++ [""]
                  ++ ["## Task History",
                      "- [" ++ ts ++ "] Task initiated: " ++ task.description,
                      ""]
                  ++ ["## Steps"] ++ stepLines 1 task.steps).map String.data)) from rfl]
  rw [inter_goal_split]
  exact splitInter _ (by simp) (docFlat_no_nl ts task h)

/-- C7 counterexample: a step description containing a newline followed by
a fake `Status:` line defeats the §6 step-section round trip — the reader
recovers a (description, status) pair different from the in-memory step,
so content-equivalence does not hold for every Task. -/
theorem scratchpad_roundtrip_newline_cex :
    read_step_section (generate_markdown "TS"
        (Task.mk "t1" "d" "g" [] []
          [Step.mk "a\nStatus: completed" "r" .OPEN none 0] "p.md" 3))
      ≠ (Task.mk "t1" "d" "g" [] []
          [Step.mk "a\nStatus: completed" "r" .OPEN none 0] "p.md" 3).steps.map
          (fun s => (s.description, some s.status)) := by
  decide

/-- C7 (amended: restricted to tasks whose text fields contain no newline
character, since a newline inside a field forges document line
boundaries): every snapshot write replaces the file's contents with the
full regenerated document whatever the file held before, and reading the
step section of the generated document recovers exactly the ordered
(description, status) pairs of the in-memory task. -/
theorem scratchpad_roundtrip (ts : String) (task : Task)
    (files : List (String × String)) (h : TaskLineSafe ts task) :
    lookupFile (update_scratchpad ts files task) task.scratchpad_path
      = some (generate_markdown ts task) ∧
    read_step_section (generate_markdown ts task)
      = task.steps.map (fun s => (s.description, some s.status)) := by
  constructor
  · simp [update_scratchpad, setFile, lookupFile, List.find?_cons]
  · unfold read_step_section
    rw [doc_lines ts task h]
    simp only [docFlatLines, String.data_append, List.map_append, List.map_cons, List.map_nil,
      List.append_assoc, List.cons_append, List.nil_append, List.singleton_append]
    rw [skip_hash_space, skip_capc, skip_empty, skip_hash2, readLoop_skip_bullets, skip_empty,
      skip_hash2, readLoop_skip_bullets, skip_empty, skip_hash2, skip_dash, skip_empty,
      skip_hash2, readLoop_steps]
    rfl

/-- C7 witness: a concrete populated task (details, notes, a failed step
with failure details) written over a nonempty file store round-trips its
step section and overwrites the old contents. -/
theorem scratchpad_roundtrip_witness :
    TaskLineSafe "2024-01-01 10:00:00"
      (Task.mk "t1" "do it" "g" ["d1"] ["n1"]
        [Step.mk "s1" "r1" .OPEN none 0,
         Step.mk "s2" "r2" .FAILED (some "boom") 1] "p.md" 3) ∧
    lookupFile
      (update_scratchpad "2024-01-01 10:00:00" [("p.md", "old contents")]
        (Task.mk "t1" "do it" "g" ["d1"] ["n1"]
          [Step.mk "s1" "r1" .OPEN none 0,
           Step.mk "s2" "r2" .FAILED (some "boom") 1] "p.md" 3)) "p.md"
      = some (generate_markdown "2024-01-01 10:00:00"
          (Task.mk "t1" "do it" "g" ["d1"] ["n1"]
            [Step.mk "s1" "r1" .OPEN none 0,
             Step.mk "s2" "r2" .FAILED (some "boom") 1] "p.md" 3)) ∧
    read_step_section (generate_markdown "2024-01-01 10:00:00"
        (Task.mk "t1" "do it" "g" ["d1"] ["n1"]
          [Step.mk "s1" "r1" .OPEN none 0,
           Step.mk "s2" "r2" .FAILED (some "boom") 1] "p.md" 3))
      = [("s1", some .OPEN), ("s2", some .FAILED)] :=
  ⟨by decide,
   (scratchpad_roundtrip "2024-01-01 10:00:00"
      (Task.mk "t1" "do it" "g" ["d1"] ["n1"]
        [Step.mk "s1" "r1" .OPEN none 0,
         Step.mk "s2" "r2" .FAILED (some "boom") 1] "p.md" 3)
      [("p.md", "old contents")] (by decide)).1,
   (scratchpad_roundtrip "2024-01-01 10:00:00"
      (Task.mk "t1" "do it" "g" ["d1"] ["n1"]
        [Step.mk "s1" "r1" .OPEN none 0,
         Step.mk "s2" "r2" .FAILED (some "boom") 1] "p.md" 3)
      [("p.md", "old contents")] (by decide)).2⟩

end BrowserUse
